import Mathlib

/-!
Shallow embedding of the SolidJS web entry module
(`packages/solid/web/src/index.ts`): the `hydrateDocument` wrapper, the
`Portal` component and the `createDynamic` / `Dynamic` helpers, together
with the slice of JavaScript and DOM semantics they exercise.

JavaScript values are modelled by the inductive `JSVal`; numbers are
modelled as integers (no claim depends on non-integral numerics), and
function values are opaque, identified by a numeric id (JavaScript
compares functions by reference, which the id models).  The attribute map
of a DOM element is an association list from attribute names to string
values.  Reactive re-execution is modelled by indexing prop reads with a
natural-number instant: `p t` is the value the corresponding getter
yields at the t-th run.
-/

/-- A JavaScript value, as far as the wrapped producer of `hydrateDocument`
and the `Dynamic` helpers inspect values: `null`, `undefined`, booleans,
(integer) numbers, strings, opaque function values and plain objects given
by their own enumerable fields in insertion order. -/
inductive JSVal where
  | null
  | undefined
  | bool (b : Bool)
  | num (n : Int)
  | str (s : String)
  | fn (id : Nat)
  | obj (fields : List (String × JSVal))
deriving Repr, Inhabited

/-- JavaScript truthiness: `null`, `undefined`, `false`, `0` and the empty
string are falsy; functions and objects are always truthy. -/
def truthy : JSVal → Bool
  | JSVal.null => false
  | JSVal.undefined => false
  | JSVal.bool b => b
  | JSVal.num n => n != 0
  | JSVal.str s => s != ""
  | JSVal.fn _ => true
  | JSVal.obj _ => true

/-- The JavaScript `typeof` operator (`typeof null` is `"object"`). -/
def typeofVal : JSVal → String
  | JSVal.null => "object"
  | JSVal.undefined => "undefined"
  | JSVal.bool _ => "boolean"
  | JSVal.num _ => "number"
  | JSVal.str _ => "string"
  | JSVal.fn _ => "function"
  | JSVal.obj _ => "object"

/-- The JavaScript `in` operator on an object value: whether the key is an
own field.  The source only applies it to values of `typeof` `"object"`. -/
def hasField : JSVal → String → Bool
  | JSVal.obj fields, k => fields.any (fun p => p.1 == k)
  | _, _ => false

/-- JavaScript property read `v[k]`: the first field with the given name,
or `undefined` when missing or when the value is not an object. -/
def getField : JSVal → String → JSVal
  | JSVal.obj fields, k => ((fields.find? (fun p => p.1 == k)).map Prod.snd).getD JSVal.undefined
  | _, _ => JSVal.undefined

/-- `Object.keys`: the own enumerable keys of an object, in order; empty
for primitives. -/
def objKeys : JSVal → List String
  | JSVal.obj fields => fields.map Prod.fst
  | _ => []

/-- JavaScript string coercion `String(v)`.  The source text of a function
value is abstracted by its id, and object values coerce to the default
`Object.prototype.toString` rendering. -/
def jsToString : JSVal → String
  | JSVal.null => "null"
  | JSVal.undefined => "undefined"
  | JSVal.bool b => if b then "true" else "false"
  | JSVal.num n => toString n
  | JSVal.str s => s
  | JSVal.fn id => "function:" ++ toString id
  | JSVal.obj _ => "[object Object]"

/-- JavaScript strict equality `===` restricted to the values compared by
the source (memoized selector values: functions, strings, `undefined`).
Two object values are never identified, modelling distinct references. -/
def jsStrictEq : JSVal → JSVal → Bool
  | JSVal.null, JSVal.null => true
  | JSVal.undefined, JSVal.undefined => true
  | JSVal.bool a, JSVal.bool b => a == b
  | JSVal.num a, JSVal.num b => a == b
  | JSVal.str a, JSVal.str b => a == b
  | JSVal.fn a, JSVal.fn b => a == b
  | _, _ => false

/-- The JavaScript loose comparison `value != null`, true exactly when the
value is neither `null` nor `undefined`. -/
def isNullish : JSVal → Bool
  | JSVal.null => true
  | JSVal.undefined => true
  | _ => false

/-- The attribute map of a DOM element: attribute names paired with their
string values, in document order. -/
abbrev Attrs := List (String × String)

/-- DOM `setAttribute`: replace the value of an existing attribute in
place, or append a new attribute. -/
def setAttribute (a : Attrs) (k v : String) : Attrs :=
  if a.any (fun p => p.1 == k) then
    a.map (fun p => if p.1 == k then (k, v) else p)
  else a ++ [(k, v)]

/-- DOM `removeAttribute`: drop the attribute if present. -/
def removeAttribute (a : Attrs) (k : String) : Attrs :=
  a.filter (fun p => p.1 != k)

/-- DOM `getAttribute`: the attribute value, or `none` when absent. -/
def getAttribute (a : Attrs) (k : String) : Option String :=
  (a.find? (fun p => p.1 == k)).map Prod.snd

/-- Assignment to the `className` IDL property, which reflects the `class`
content attribute (the assigned value is coerced to a string by the DOM
binding). -/
def setClassName (a : Attrs) (v : String) : Attrs :=
  setAttribute a "class" v

/-- The body of the `Object.keys(props).forEach` loop inside
`hydrateDocument`: skip the `children` and `ref` keys, skip nullish
values, assign `className` for the `class` / `className` keys, toggle
attribute presence for boolean values, and otherwise set the attribute to
the string coercion of the value. -/
def applyPropKey (doc : Attrs) (key : String) (value : JSVal) : Attrs :=
  if key == "children" || key == "ref" then doc
  else if isNullish value then doc
  else if key == "className" || key == "class" then setClassName doc (jsToString value)
  else
    match value with
    | JSVal.bool true => setAttribute doc key ""
    | JSVal.bool false => removeAttribute doc key
    | v => setAttribute doc key (jsToString v)

/-- The guard of the wrapped producer: the produced value is truthy, of
`typeof` `"object"`, has a `type` field, and that field is strictly equal
to the string `"html"`. -/
def isHtmlWrapper (result : JSVal) : Bool :=
  truthy result && typeofVal result == "object" && hasField result "type"
    && jsStrictEq (getField result "type") (JSVal.str "html")

/-- One run of the wrapped producer built by `hydrateDocument`, given the
current attribute map of `document.documentElement` and the value the user
producer returned: when the value is an `html` wrapper with truthy
`props`, every key of `props` is folded through `applyPropKey`, and the
truthy `children` field (when present) replaces the returned value;
otherwise both the document and the value pass through unchanged. -/
def wrappedFnRun (doc : Attrs) (result : JSVal) : Attrs × JSVal :=
  if isHtmlWrapper result then
    let props := getField result "props"
    if truthy props then
      let doc1 := (objKeys props).foldl (fun d key => applyPropKey d key (getField props key)) doc
      if truthy (getField props "children") then (doc1, getField props "children")
      else (doc1, result)
    else (doc, result)
  else (doc, result)

/-- An `html` wrapper node with the given props fields, as produced by a
component returning an `<html>` element. -/
def mkHtmlNode (fields : List (String × JSVal)) : JSVal :=
  JSVal.obj [("type", JSVal.str "html"), ("props", JSVal.obj fields)]

/-- A DOM node that can serve as a mount or hydration target. -/
inductive DomNode where
  | documentElement
  | body
  | head
  | other (id : Nat)
deriving DecidableEq, Repr

/-- The options record accepted by `hydrateDocument`. -/
structure HydrateOptions where
  renderId : Option String
  owner : Option Nat
deriving DecidableEq, Repr

/-- A disposer callback returned by hydration. -/
abbrev Disposer := Unit → Unit

/-- Modelled from the spec: the core hydration entry point `hydrate` of
`./client.js` is not under src; per the spec it receives the producer, the
mount target and the options verbatim and returns a callable disposer.
The invocation is recorded so theorems can observe the arguments. -/
structure CoreHydrateCall where
  producer : Attrs → Attrs × JSVal
  target : DomNode
  options : Option HydrateOptions

/-- Modelled from the spec: `hydrate` from `./client.js` (not under src),
recording its arguments and returning a disposer that is safe to invoke. -/
def hydrateCore (fn : Attrs → Attrs × JSVal) (target : DomNode)
    (options : Option HydrateOptions) : CoreHydrateCall × Disposer :=
  ({ producer := fn, target := target, options := options }, fun _ => ())

/-- Modelled from the spec: `enableHydration` from solid-js (not under
src) switches the library's hydration mode on. -/
def enableHydration (_hydrationEnabled : Bool) : Bool :=
  true

/-- The observable result of a `hydrateDocument` call: the hydration-mode
flag after the call, the recorded core-hydration invocation, and the
returned disposer. -/
structure HydrateDocumentResult where
  hydrationEnabled : Bool
  core : CoreHydrateCall
  disposer : Disposer

/-- The `hydrateDocument` entry point: enable hydration mode, wrap the
producer with the `html`-wrapper extraction (`wrappedFnRun`), and call the
core hydration routine on the wrapped producer, `document.documentElement`
and the received options. -/
def hydrateDocument (fn : Attrs → JSVal) (options : Option HydrateOptions) :
    HydrateDocumentResult :=
  let enabled := enableHydration false
  let wrappedFn : Attrs → Attrs × JSVal := fun doc => wrappedFnRun doc (fn doc)
  let r := hydrateCore wrappedFn DomNode.documentElement options
  { hydrationEnabled := enabled, core := r.1, disposer := r.2 }

/-- The SVG namespace constant of the source module. -/
def SVG_NAMESPACE : String := "http://www.w3.org/2000/svg"

/-- A created DOM element: either namespaced (`document.createElementNS`)
or plain (`document.createElement` with its `is` option). -/
inductive DomElement where
  | elNS (ns : String) (tag : String)
  | el (tag : String) (isOpt : Option String)
deriving DecidableEq, Repr

/-- The module's `createElement` helper: namespaced creation in the SVG
namespace when `isSVG` is set, plain creation with the `is` option
otherwise. -/
def createElement (tagName : String) (isSVG : Bool) (isOpt : Option String) : DomElement :=
  if isSVG then DomElement.elNS SVG_NAMESPACE tagName
  else DomElement.el tagName isOpt

/-- The props read by `Portal` in one effect run, plus the `useShadow`
field destructured at call time. -/
structure PortalProps where
  mount : Option DomNode
  useShadow : Bool
  isSVG : Bool
deriving DecidableEq, Repr

/-- Where `Portal` renders its content inside the container branch. -/
inductive RenderRoot where
  | shadowRoot
  | container
deriving DecidableEq, Repr

/-- The insertion a `Portal` effect run performs. -/
inductive PortalOutcome where
  | headInsert (target : DomNode)
  | containerInsert (container : DomElement) (root : RenderRoot) (appendedTo : DomNode)
deriving DecidableEq, Repr

/-- The teardown a `Portal` effect run registers. -/
inductive PortalCleanup where
  | disposeOnSignal
  | removeChildFrom (target : DomNode)
deriving DecidableEq, Repr

/-- The observable result of one `Portal` effect run. -/
structure PortalEffectResult where
  outcome : PortalOutcome
  cleanup : PortalCleanup
deriving DecidableEq, Repr

/-- One run of the effect inside `Portal`, with the `useShadow` value
captured by the call-time destructuring and the availability of
`attachShadow` on the created container.  The mount target defaults to
`document.body`; a head target receives the content directly and registers
a signal-driven disposal, any other target receives a freshly created
container (`div`, or SVG `g` when `isSVG`), rendered into an open shadow
root when the captured `useShadow` is set and `attachShadow` is available,
and the cleanup removes the container from the target. -/
def portalEffect (useShadow : Bool) (attachShadowAvailable : Bool)
    (props : PortalProps) : PortalEffectResult :=
  match props.mount.getD DomNode.body with
  | DomNode.head =>
      { outcome := PortalOutcome.headInsert DomNode.head
        cleanup := PortalCleanup.disposeOnSignal }
  | el =>
      let container := createElement (if props.isSVG then "g" else "div") props.isSVG none
      let root := if useShadow && attachShadowAvailable then RenderRoot.shadowRoot
                  else RenderRoot.container
      { outcome := PortalOutcome.containerInsert container root el
        cleanup := PortalCleanup.removeChildFrom el }

/-- The `Portal` component over a stream of prop reads: `useShadow` is
destructured once at call time (instant 0), while the effect re-reads
`mount` and `isSVG` on every run. -/
def Portal (props : Nat → PortalProps) (attachShadowAvailable : Bool) :
    Nat → PortalEffectResult :=
  let useShadow := (props 0).useShadow
  fun t => portalEffect useShadow attachShadowAvailable (props t)

/-- A props object passed to the `Dynamic` helpers: named fields with
JavaScript values. -/
abbrev Props := List (String × JSVal)

/-- Property read on a props object, `undefined` when absent. -/
def getProp (props : Props) (k : String) : JSVal :=
  ((props.find? (fun p => p.1 == k)).map Prod.snd).getD JSVal.undefined

/-- The `is` option passed by `createDynamic` to `createElement`, read
without tracking from the props; only a string value is forwarded. -/
def propIs (props : Props) : Option String :=
  match getProp props "is" with
  | JSVal.str s => some s
  | _ => none

/-- How the element of the string branch of `createDynamic` is obtained:
adopted from the existing markup (`getNextElement`) under an active
hydration context, or freshly created. -/
inductive DynSource where
  | adopted
  | created (el : DomElement)
deriving Repr

/-- The observable result of one computation of the memo returned by
`createDynamic`: a component invocation (with the props it received and
whether the scope was tracking), an element with the props spread onto it
and the SVG flag passed to `spread`, or `undefined`. -/
inductive DynResult where
  | componentCall (id : Nat) (props : Props) (tracked : Bool)
  | element (src : DynSource) (spreadProps : Props) (spreadSvg : Bool)
  | undef
deriving Repr

/-- One computation of the inner memo of `createDynamic` on the current
cached selector value: a function value is invoked with the props in a
non-tracking scope, a string value creates (or adopts, under hydration)
the element, choosing the SVG namespace exactly when the tag is in the
`SVGElements` set, and spreads the props onto it; anything else yields
`undefined`. -/
def createDynamicAt (hydrationCtx : Bool) (svgElements : String → Bool)
    (component : JSVal) (props : Props) : DynResult :=
  match component with
  | JSVal.fn id => DynResult.componentCall id props false
  | JSVal.str s =>
      let isSvg := svgElements s
      let el := if hydrationCtx then DynSource.adopted
                else DynSource.created (createElement s isSvg (propIs props))
      DynResult.element el props isSvg
  | _ => DynResult.undef

/-- Modelled from the spec: `createMemo` from solid-js (not under src)
with the default comparator recomputes its dependents exactly when its
value changes under strict equality; instant 0 is the initial
computation. -/
def memoRecomputed (values : Nat → JSVal) : Nat → Bool
  | 0 => true
  | t + 1 => !jsStrictEq (values (t + 1)) (values t)

/-- Modelled from the spec: the instant whose value a memo chain holds at
instant t, namely the most recent instant at which the memoized value
changed. -/
def lastRecompute (values : Nat → JSVal) : Nat → Nat
  | 0 => 0
  | t + 1 => if jsStrictEq (values (t + 1)) (values t) then lastRecompute values t
             else t + 1

/-- The output of `createDynamic` over time: the value held at each
instant and whether the instant recomputed it. -/
structure DynStream where
  value : Nat → DynResult
  recomputed : Nat → Bool

/-- The `createDynamic` helper over streams of selector values and prop
reads: the selector is memoized (`cached`), and the returned memo
recomputes from the current cached value and props exactly when the
cached value changes, otherwise holding the previously computed result. -/
def createDynamic (hydrationCtx : Bool) (svgElements : String → Bool)
    (component : Nat → JSVal) (props : Nat → Props) : DynStream :=
  { value := fun t =>
      createDynamicAt hydrationCtx svgElements
        (component (lastRecompute component t)) (props (lastRecompute component t))
    recomputed := memoRecomputed component }

/-- Modelled from the spec: the second component of solid-js `splitProps`
(not under src) applied to one key list, the props object without the
named keys. -/
def splitPropsRest (props : Props) (keys : List String) : Props :=
  props.filter (fun p => !(keys.contains p.1))

/-- The `Dynamic` component (named `DynamicComponent` here because `Dynamic`
already exists in Lean): split the `component` key off the received props
and delegate to `createDynamic` with a selector reading `props.component`
reactively and the remaining props. -/
def DynamicComponent (hydrationCtx : Bool) (svgElements : String → Bool)
    (props : Nat → Props) : DynStream :=
  createDynamic hydrationCtx svgElements
    (fun t => getProp (props t) "component")
    (fun t => splitPropsRest (props t) ["component"])

/-- A JavaScript value that is not an object, so that strict equality on it
coincides with structural equality of the model. -/
def isScalar : JSVal → Bool
  | JSVal.obj _ => false
  | _ => true

/-- A prop stream whose useShadow getter yields true only at instant 0. -/
def portalStreamA : Nat → PortalProps := fun t =>
  { mount := none, useShadow := t == 0, isSVG := false }

/-- A prop stream whose useShadow getter constantly yields true. -/
def portalStreamB : Nat → PortalProps := fun _ =>
  { mount := none, useShadow := true, isSVG := false }

/-- A sample SVGElements membership function for concrete instances. -/
def svgSample : String → Bool := fun s => s == "circle"

/-- A sample selector stream switching from a div tag to a circle tag. -/
def selSample : Nat → JSVal := fun t =>
  if t == 0 then JSVal.str "div" else JSVal.str "circle"

/-- A sample props stream for the dynamic helpers. -/
def propsSample : Nat → Props := fun _ => [("id", JSVal.str "x")]

/-- A sample props stream carrying a component prop. -/
def dynPropsSample : Nat → Props := fun _ =>
  [("component", JSVal.fn 5), ("value", JSVal.str "v")]

/-! Helper lemmas shared by the claim theorems. -/

theorem getField_obj_cons_self (k₀ : String) (v₀ : JSVal) (fs : List (String × JSVal)) :
    getField (JSVal.obj ((k₀, v₀) :: fs)) k₀ = v₀ := by
  simp [getField, List.find?]

theorem getField_obj_cons_ne (k₀ : String) (v₀ : JSVal) (fs : List (String × JSVal))
    (k : String) (h : k₀ ≠ k) :
    getField (JSVal.obj ((k₀, v₀) :: fs)) k = getField (JSVal.obj fs) k := by
  have hb : (k₀ == k) = false := beq_eq_false_iff_ne.mpr h
  simp [getField, List.find?, hb]

theorem isHtmlWrapper_mkHtmlNode (fields : List (String × JSVal)) :
    isHtmlWrapper (mkHtmlNode fields) = true := rfl

theorem getField_mkHtmlNode_props (fields : List (String × JSVal)) :
    getField (mkHtmlNode fields) "props" = JSVal.obj fields := rfl

theorem wrappedFnRun_doc_mkHtmlNode (doc : Attrs) (fields : List (String × JSVal)) :
    (wrappedFnRun doc (mkHtmlNode fields)).1 =
      (fields.map Prod.fst).foldl
        (fun d key => applyPropKey d key (getField (JSVal.obj fields) key)) doc := by
  simp only [wrappedFnRun, isHtmlWrapper_mkHtmlNode, getField_mkHtmlNode_props, objKeys]
  cases htr : truthy (getField (JSVal.obj fields) "children") <;> simp [truthy]

theorem foldl_applyPropKey_fields (fields : List (String × JSVal)) (doc : Attrs)
    (hnd : (fields.map Prod.fst).Nodup) :
    (fields.map Prod.fst).foldl
        (fun d key => applyPropKey d key (getField (JSVal.obj fields) key)) doc
      = fields.foldl (fun d kv => applyPropKey d kv.1 kv.2) doc := by
  induction fields generalizing doc with
  | nil => rfl
  | cons hd tl ih =>
      obtain ⟨k₀, v₀⟩ := hd
      simp only [List.map_cons, List.foldl_cons] at hnd ⊢
      rw [List.nodup_cons] at hnd
      rw [getField_obj_cons_self]
      have hext : (tl.map Prod.fst).foldl
            (fun d key => applyPropKey d key (getField (JSVal.obj ((k₀, v₀) :: tl)) key))
            (applyPropKey doc k₀ v₀)
          = (tl.map Prod.fst).foldl
            (fun d key => applyPropKey d key (getField (JSVal.obj tl) key))
            (applyPropKey doc k₀ v₀) := by
        apply List.foldl_ext
        intro a b hb
        have hne : k₀ ≠ b := fun he => hnd.1 (he.symm ▸ hb)
        rw [getField_obj_cons_ne _ _ _ _ hne]
      rw [hext, ih _ hnd.2]

/-! Theorems settling the claims. -/

/-- C3: for every key of the html wrapper's props whose value is null or
undefined, hydrateDocument applies nothing: the per-key step of the
wrapped producer leaves the attribute map of document.documentElement
unchanged, a full wrapped-producer run whose props carry only that key
leaves it unchanged, and the pre-existing value of the attribute is
preserved. -/
theorem hydrateDocument_skips_nullish (d : Attrs) (k : String) (v : JSVal)
    (hv : v = JSVal.null ∨ v = JSVal.undefined) :
    applyPropKey d k v = d
    ∧ (wrappedFnRun d (mkHtmlNode [(k, v)])).1 = d
    ∧ getAttribute (applyPropKey d k v) k = getAttribute d k := by
  have hap : applyPropKey d k v = d := by
    rcases hv with h | h <;> subst h <;> unfold applyPropKey <;> split <;> simp [isNullish]
  refine ⟨hap, ?_, by rw [hap]⟩
  rw [wrappedFnRun_doc_mkHtmlNode]
  simp only [List.map_cons, List.map_nil, List.foldl_cons, List.foldl_nil]
  rw [getField_obj_cons_self, hap]

theorem hydrateDocument_skips_nullish_witness :
    (JSVal.null = JSVal.null ∨ JSVal.null = JSVal.undefined)
    ∧ (applyPropKey [("lang", "en")] "dir" JSVal.null = [("lang", "en")]
       ∧ (wrappedFnRun [("lang", "en")] (mkHtmlNode [("dir", JSVal.null)])).1 = [("lang", "en")]
       ∧ getAttribute (applyPropKey [("lang", "en")] "dir" JSVal.null) "dir"
           = getAttribute [("lang", "en")] "dir") :=
  ⟨Or.inl rfl, hydrateDocument_skips_nullish [("lang", "en")] "dir" JSVal.null (Or.inl rfl)⟩

/-- C4: for every produced value that is null, undefined, a string, a
number, or otherwise not an html wrapper, the wrapped producer of
hydrateDocument extracts nothing, mutates no attribute, and returns the
value unchanged. -/
theorem hydrateDocument_passthrough (d : Attrs) (v : JSVal)
    (hv : v = JSVal.null ∨ v = JSVal.undefined ∨ (∃ s, v = JSVal.str s)
          ∨ (∃ n, v = JSVal.num n) ∨ isHtmlWrapper v = false) :
    wrappedFnRun d v = (d, v) ∧ isHtmlWrapper v = false := by
  have hw : isHtmlWrapper v = false := by
    rcases hv with h | h | ⟨s, h⟩ | ⟨n, h⟩ | h
    · subst h; rfl
    · subst h; rfl
    · subst h; simp [isHtmlWrapper, typeofVal]
    · subst h; simp [isHtmlWrapper, typeofVal]
    · exact h
  refine ⟨?_, hw⟩
  unfold wrappedFnRun
  rw [hw]
  simp

theorem hydrateDocument_passthrough_witness :
    (JSVal.num 42 = JSVal.null ∨ JSVal.num 42 = JSVal.undefined
        ∨ (∃ s, JSVal.num 42 = JSVal.str s) ∨ (∃ n, JSVal.num 42 = JSVal.num n)
        ∨ isHtmlWrapper (JSVal.num 42) = false)
    ∧ (wrappedFnRun [] (JSVal.num 42) = ([], JSVal.num 42)
       ∧ isHtmlWrapper (JSVal.num 42) = false) :=
  ⟨Or.inr (Or.inr (Or.inr (Or.inl ⟨42, rfl⟩))),
   hydrateDocument_passthrough [] (JSVal.num 42)
     (Or.inr (Or.inr (Or.inr (Or.inl ⟨42, rfl⟩))))⟩

/-- C2 counterexample: a producer returning an html wrapper whose props
contain the children entry 0 (a falsy value) makes the wrapped producer
return the original wrapper object rather than the children value, so a
merely present children entry is not always forwarded. -/
theorem hydrateDocument_children_falsy_cex :
    (wrappedFnRun [] (mkHtmlNode [("children", JSVal.num 0)])).2
        = mkHtmlNode [("children", JSVal.num 0)]
    ∧ (wrappedFnRun [] (mkHtmlNode [("children", JSVal.num 0)])).2 ≠ JSVal.num 0 :=
  ⟨rfl, fun h => nomatch h⟩

/-- C2 (amended): when the producer returns an html wrapper whose props
contain a truthy children entry, the wrapped producer returns that
children value; when the produced value is not an html wrapper, the
wrapped producer returns it unchanged. -/
theorem hydrateDocument_children_forwarding (d : Attrs) (result : JSVal) :
    (∀ fields, result = mkHtmlNode fields →
        truthy (getField (JSVal.obj fields) "children") = true →
        (wrappedFnRun d result).2 = getField (JSVal.obj fields) "children")
    ∧ (isHtmlWrapper result = false → (wrappedFnRun d result).2 = result) := by
  constructor
  · intro fields hres htr
    subst hres
    simp only [wrappedFnRun, isHtmlWrapper_mkHtmlNode, getField_mkHtmlNode_props, objKeys]
    rw [htr]
    simp [truthy]
  · intro hw
    unfold wrappedFnRun
    rw [hw]
    simp

theorem hydrateDocument_children_forwarding_witness :
    (wrappedFnRun [] (mkHtmlNode [("children", JSVal.str "body")])).2
      = getField (JSVal.obj [("children", JSVal.str "body")]) "children" :=
  (hydrateDocument_children_forwarding [] (mkHtmlNode [("children", JSVal.str "body")])).1
    [("children", JSVal.str "body")] rfl rfl

/-- C1: the wrapped producer of hydrateDocument reflects every key of the
html wrapper's props (with pairwise distinct keys) onto
document.documentElement by folding the per-key step over the props in
order, and the per-key step treats each non-children/ref key with
non-nullish value as claimed: the class and className keys assign the
className property to the string coercion of the value, boolean true sets
the attribute with the empty string, boolean false removes the attribute,
and every other value is set via setAttribute after string coercion. -/
theorem hydrateDocument_attribute_reflection (doc : Attrs)
    (fields : List (String × JSVal)) (hnd : (fields.map Prod.fst).Nodup) :
    (wrappedFnRun doc (mkHtmlNode fields)).1 =
      fields.foldl (fun d kv => applyPropKey d kv.1 kv.2) doc
    ∧ ∀ d k v, k ≠ "children" → k ≠ "ref" → v ≠ JSVal.null → v ≠ JSVal.undefined →
        (((k = "className" ∨ k = "class") →
            applyPropKey d k v = setClassName d (jsToString v))
         ∧ (k ≠ "className" → k ≠ "class" → v = JSVal.bool true →
            applyPropKey d k v = setAttribute d k "")
         ∧ (k ≠ "className" → k ≠ "class" → v = JSVal.bool false →
            applyPropKey d k v = removeAttribute d k)
         ∧ (k ≠ "className" → k ≠ "class" → (∀ b, v ≠ JSVal.bool b) →
            applyPropKey d k v = setAttribute d k (jsToString v))) := by
  refine ⟨?_, ?_⟩
  · rw [wrappedFnRun_doc_mkHtmlNode, foldl_applyPropKey_fields _ _ hnd]
  · intro d k v hk1 hk2 hv1 hv2
    have hnv : isNullish v = false := by
      cases v with
      | null => exact absurd rfl hv1
      | undefined => exact absurd rfl hv2
      | bool b => rfl
      | num n => rfl
      | str s => rfl
      | fn id => rfl
      | obj fs => rfl
    have hkey : (k == "children" || k == "ref") = false := by
      simp [hk1, hk2]
    refine ⟨?_, ?_, ?_, ?_⟩
    · rintro (h | h) <;> subst h <;> simp [applyPropKey, hnv, isNullish]
    · intro h1 h2 h3
      subst h3
      have hcc : (k == "className" || k == "class") = false := by simp [h1, h2]
      simp [applyPropKey, hkey, hcc, isNullish]
    · intro h1 h2 h3
      subst h3
      have hcc : (k == "className" || k == "class") = false := by simp [h1, h2]
      simp [applyPropKey, hkey, hcc, isNullish]
    · intro h1 h2 h3
      have hcc : (k == "className" || k == "class") = false := by simp [h1, h2]
      cases v with
      | null => exact absurd rfl hv1
      | undefined => exact absurd rfl hv2
      | bool b => exact absurd rfl (h3 b)
      | num n => simp [applyPropKey, hkey, hcc, isNullish]
      | str s => simp [applyPropKey, hkey, hcc, isNullish]
      | fn id => simp [applyPropKey, hkey, hcc, isNullish]
      | obj fs => simp [applyPropKey, hkey, hcc, isNullish]

theorem hydrateDocument_attribute_reflection_witness :
    (List.map Prod.fst [("lang", JSVal.str "fr")]).Nodup
    ∧ (wrappedFnRun [] (mkHtmlNode [("lang", JSVal.str "fr")])).1 = [("lang", "fr")] := by
  refine ⟨by simp, ?_⟩
  have h := (hydrateDocument_attribute_reflection [] [("lang", JSVal.str "fr")] (by simp)).1
  rw [h]
  rfl

/-- C5: hydrateDocument enables the library's hydration mode, passes the
wrapped producer, document.documentElement and the received options object
verbatim to the core hydration routine, and returns that routine's
disposer, which is callable. -/
theorem hydrateDocument_options_passthrough (fn : Attrs → JSVal)
    (options : Option HydrateOptions) :
    (hydrateDocument fn options).hydrationEnabled = true
    ∧ (hydrateDocument fn options).core.target = DomNode.documentElement
    ∧ (hydrateDocument fn options).core.options = options
    ∧ (∀ doc, (hydrateDocument fn options).core.producer doc = wrappedFnRun doc (fn doc))
    ∧ (hydrateDocument fn options).disposer = (hydrateCore
        (fun doc => wrappedFnRun doc (fn doc)) DomNode.documentElement options).2
    ∧ (hydrateDocument fn options).disposer () = () :=
  ⟨rfl, rfl, rfl, fun _ => rfl, rfl, rfl⟩

/-- C6: the Portal mount target defaults to document.body when no mount
prop is supplied; a head target receives the children directly, with a
signal-driven teardown and no container; any other target receives a
freshly created container (a div, or an SVG g element in the SVG namespace
when isSVG is set), rendered into a shadow root exactly when useShadow is
set and attachShadow is available, appended to the target and removed
from the target on cleanup. -/
theorem Portal_mount_behavior (props : PortalProps) (avail : Bool) :
    (props.mount = none →
        portalEffect props.useShadow avail props =
          portalEffect props.useShadow avail
            { mount := some DomNode.body, useShadow := props.useShadow,
              isSVG := props.isSVG })
    ∧ (props.mount.getD DomNode.body = DomNode.head →
        portalEffect props.useShadow avail props =
          { outcome := PortalOutcome.headInsert DomNode.head
            cleanup := PortalCleanup.disposeOnSignal })
    ∧ (∀ tgt, props.mount.getD DomNode.body = tgt → tgt ≠ DomNode.head →
        portalEffect props.useShadow avail props =
          { outcome := PortalOutcome.containerInsert
              (if props.isSVG then DomElement.elNS SVG_NAMESPACE "g"
               else DomElement.el "div" none)
              (if props.useShadow && avail then RenderRoot.shadowRoot
               else RenderRoot.container)
              tgt
            cleanup := PortalCleanup.removeChildFrom tgt }) := by
  refine ⟨?_, ?_, ?_⟩
  · intro h
    simp [portalEffect, h]
  · intro h
    simp [portalEffect, h]
  · intro tgt h hne
    cases hsvg : props.isSVG <;> cases tgt <;>
      simp_all [portalEffect, createElement]

theorem Portal_mount_behavior_witness :
    portalEffect true true
        { mount := some (DomNode.other 7), useShadow := true, isSVG := false } =
      { outcome := PortalOutcome.containerInsert (DomElement.el "div" none)
          RenderRoot.shadowRoot (DomNode.other 7)
        cleanup := PortalCleanup.removeChildFrom (DomNode.other 7) } := by
  have h := (Portal_mount_behavior
      { mount := some (DomNode.other 7), useShadow := true, isSVG := false } true).2.2
      (DomNode.other 7) rfl (by decide)
  exact h

/-- C10: Portal captures useShadow once, at call time: two prop streams
that agree on useShadow at instant 0 and on mount and isSVG at instant t
produce identical effect runs at t, so later changes to useShadow never
affect the shadow-root decision, while mount and isSVG are re-read on
each run; moreover every run applies the initially captured useShadow to
the props read at that run. -/
theorem Portal_useShadow_capture (p q : Nat → PortalProps) (avail : Bool) (t : Nat)
    (hShadow : (p 0).useShadow = (q 0).useShadow)
    (hMount : (p t).mount = (q t).mount)
    (hSVG : (p t).isSVG = (q t).isSVG) :
    Portal p avail t = Portal q avail t
    ∧ Portal p avail t = portalEffect (p 0).useShadow avail (p t) := by
  refine ⟨?_, rfl⟩
  show portalEffect (p 0).useShadow avail (p t)
      = portalEffect (q 0).useShadow avail (q t)
  rw [hShadow]
  unfold portalEffect
  rw [hMount, hSVG]

theorem Portal_useShadow_capture_witness :
    Portal portalStreamA true 3 = Portal portalStreamB true 3 :=
  (Portal_useShadow_capture portalStreamA portalStreamB true 3 rfl rfl rfl).1

theorem jsStrictEq_eq_true_iff (v w : JSVal) (hv : isScalar v = true) :
    jsStrictEq v w = true ↔ v = w := by
  cases v <;> cases w <;> simp_all [jsStrictEq, isScalar]

theorem lastRecompute_eq_self_of_recomputed (values : Nat → JSVal) (t : Nat)
    (h : memoRecomputed values t = true) : lastRecompute values t = t := by
  cases t with
  | zero => rfl
  | succ u =>
      have hj : jsStrictEq (values (u + 1)) (values u) = false := by
        simpa [memoRecomputed] using h
      simp [lastRecompute, hj]

theorem lastRecompute_succ_of_eq (values : Nat → JSVal) (t : Nat)
    (h : jsStrictEq (values (t + 1)) (values t) = true) :
    lastRecompute values (t + 1) = lastRecompute values t := by
  simp [lastRecompute, h]

theorem getProp_splitPropsRest (props : Props) (k : String) :
    getProp (splitPropsRest props [k]) k = JSVal.undefined := by
  induction props with
  | nil => rfl
  | cons hd tl ih =>
      obtain ⟨k₀, v₀⟩ := hd
      by_cases h : k₀ = k
      · subst h
        simpa [splitPropsRest, getProp, List.filter] using ih
      · have hb : (k₀ == k) = false := beq_eq_false_iff_ne.mpr h
        simp only [splitPropsRest, getProp, List.filter, List.contains,
          List.elem, hb] at ih ⊢
        simpa [hb] using ih

/-- C7: createDynamic memoizes its selector: an instant recomputes exactly
when the memoized value changes (value inequality, for non-object selector
values), a non-recomputing instant holds the previous result, and a
recomputing instant computes from the current value and props: a function
value is invoked with the supplied props in a non-tracking scope, and a
string value creates an element of that tag name (adopted from existing
markup when a hydration context is active), in the SVG namespace exactly
when the tag is in the SVGElements set, with the props spread onto it. -/
theorem createDynamic_contract (hy : Bool) (svg : String → Bool)
    (component : Nat → JSVal) (props : Nat → Props) (t : Nat) :
    ((createDynamic hy svg component props).recomputed (t + 1)
        = !jsStrictEq (component (t + 1)) (component t))
    ∧ (isScalar (component (t + 1)) = true →
        ((createDynamic hy svg component props).recomputed (t + 1) = true
          ↔ component (t + 1) ≠ component t))
    ∧ ((createDynamic hy svg component props).recomputed (t + 1) = false →
        (createDynamic hy svg component props).value (t + 1)
          = (createDynamic hy svg component props).value t)
    ∧ ((createDynamic hy svg component props).recomputed t = true →
        (createDynamic hy svg component props).value t
          = createDynamicAt hy svg (component t) (props t))
    ∧ (∀ id P, createDynamicAt hy svg (JSVal.fn id) P
        = DynResult.componentCall id P false)
    ∧ (∀ s P, createDynamicAt hy svg (JSVal.str s) P
        = DynResult.element
            (if hy then DynSource.adopted
             else DynSource.created (createElement s (svg s) (propIs P)))
            P (svg s))
    ∧ (∀ s, svg s = true → createElement s (svg s) none = DomElement.elNS SVG_NAMESPACE s)
    ∧ (∀ s P, svg s = false →
        createElement s (svg s) (propIs P) = DomElement.el s (propIs P)) := by
  refine ⟨rfl, ?_, ?_, ?_, fun id P => rfl, fun s P => rfl, ?_, ?_⟩
  · intro hsc
    have : (createDynamic hy svg component props).recomputed (t + 1)
        = !jsStrictEq (component (t + 1)) (component t) := rfl
    rw [this]
    rw [Bool.not_eq_true']
    constructor
    · intro hj he
      rw [(jsStrictEq_eq_true_iff _ _ hsc).2 he] at hj
      exact absurd hj (by decide)
    · intro hne
      cases hj : jsStrictEq (component (t + 1)) (component t)
      · rfl
      · exact absurd ((jsStrictEq_eq_true_iff _ _ hsc).1 hj) hne
  · intro h
    have hj : jsStrictEq (component (t + 1)) (component t) = true := by
      simpa [createDynamic, memoRecomputed] using h
    show createDynamicAt hy svg (component (lastRecompute component (t + 1)))
          (props (lastRecompute component (t + 1)))
        = createDynamicAt hy svg (component (lastRecompute component t))
          (props (lastRecompute component t))
    rw [lastRecompute_succ_of_eq component t hj]
  · intro h
    have hl : lastRecompute component t = t :=
      lastRecompute_eq_self_of_recomputed component t h
    show createDynamicAt hy svg (component (lastRecompute component t))
          (props (lastRecompute component t))
        = createDynamicAt hy svg (component t) (props t)
    rw [hl]
  · intro s h
    rw [h]
    rfl
  · intro s P h
    rw [h]
    rfl

theorem createDynamic_contract_witness :
    (createDynamic false svgSample selSample propsSample).value 0
      = createDynamicAt false svgSample (selSample 0) (propsSample 0) :=
  (createDynamic_contract false svgSample selSample propsSample 0).2.2.2.1 rfl

/-- C8: a selector value that is neither a function nor a string (for
example undefined) makes the computation of createDynamic yield undefined:
no element is created and no props are spread. -/
theorem createDynamic_default_branch (hy : Bool) (svg : String → Bool)
    (v : JSVal) (P : Props)
    (hf : typeofVal v ≠ "function") (hs : typeofVal v ≠ "string") :
    createDynamicAt hy svg v P = DynResult.undef := by
  cases v with
  | fn id => exact absurd rfl hf
  | str s => exact absurd rfl hs
  | null => rfl
  | undefined => rfl
  | bool b => rfl
  | num n => rfl
  | obj fs => rfl

theorem createDynamic_default_branch_witness :
    typeofVal JSVal.undefined ≠ "function"
    ∧ typeofVal JSVal.undefined ≠ "string"
    ∧ createDynamicAt false svgSample JSVal.undefined [] = DynResult.undef :=
  ⟨by decide, by decide,
   createDynamic_default_branch false svgSample JSVal.undefined []
     (by decide) (by decide)⟩

/-- C9: Dynamic forwards to createDynamic exactly the received props with
the component key split off, so the rendered component or element never
receives a component prop, while the selector passed to createDynamic
reads the component prop of the current props. -/
theorem Dynamic_component_split (hy : Bool) (svg : String → Bool)
    (props : Nat → Props) (t : Nat) :
    DynamicComponent hy svg props
        = createDynamic hy svg (fun u => getProp (props u) "component")
            (fun u => splitPropsRest (props u) ["component"])
    ∧ getProp (splitPropsRest (props t) ["component"]) "component" = JSVal.undefined
    ∧ (∀ id, getProp (props t) "component" = JSVal.fn id →
        (DynamicComponent hy svg props).recomputed t = true →
        (DynamicComponent hy svg props).value t
          = DynResult.componentCall id (splitPropsRest (props t) ["component"]) false) := by
  refine ⟨rfl, getProp_splitPropsRest _ _, ?_⟩
  intro id hcomp hrec
  have hrec' : memoRecomputed (fun u => getProp (props u) "component") t = true := hrec
  have hl : lastRecompute (fun u => getProp (props u) "component") t = t :=
    lastRecompute_eq_self_of_recomputed _ t hrec'
  show createDynamicAt hy svg
        ((fun u => getProp (props u) "component")
          (lastRecompute (fun u => getProp (props u) "component") t))
        ((fun u => splitPropsRest (props u) ["component"])
          (lastRecompute (fun u => getProp (props u) "component") t))
      = DynResult.componentCall id (splitPropsRest (props t) ["component"]) false
  rw [hl]
  show createDynamicAt hy svg (getProp (props t) "component")
        (splitPropsRest (props t) ["component"])
      = DynResult.componentCall id (splitPropsRest (props t) ["component"]) false
  rw [hcomp]
  rfl

theorem Dynamic_component_split_witness :
    (DynamicComponent false svgSample dynPropsSample).value 0
      = DynResult.componentCall 5
          (splitPropsRest (dynPropsSample 0) ["component"]) false :=
  (Dynamic_component_split false svgSample dynPropsSample 0).2.2 5 rfl rfl
